import Mathlib

/-!
# Verification of the checkr reactive job-binding core

Shallow embedding of the reactive job-binding core of the repository:

* `src/inspectify-app/src/lib/io.ts` (primary variant), and
* `src/unnamed/part_001` (secondary/legacy variant of the same design).

The code is built from Svelte stores.  We embed it as explicit state
machines driven by event traces:

* the *debounced dispatcher* (`jobIdAndMetaDerived` in `io.ts`,
  `jobIdDerived` in `part_001`) becomes a timed machine `DState`/`stepD`
  driven by timestamped events (input writes, compilation-status
  emissions, and resolution/rejection of the in-flight submission
  request).  Svelte's `derived` invokes the previous invocation's
  cleanup before re-running the callback on every dependency emission;
  the callback sleeps 200 time units (`setTimeout(..., 200)`), checks
  its `stop` flag, issues the submission request, and on resolution
  publishes `{jobId, input, meta}` via `set`.

* the *results* store (`results` in both files) becomes an untimed
  machine `RState`/`stepR` (and `P1RState`/`stepP1` for `part_001`)
  driven by: publication of a resolved dispatch (`jobIdDerived` /
  `cachedInput` emitting — Svelte's `derived` over several stores is
  glitch-free via its pending bitmask, so the `(jobId, cachedInput)`
  pair is always published atomically), emissions of the shared
  `jobsStore` map, per-record store notifications (`job.subscribe`
  callbacks), poll-loop wakeups, and live input edits (which the
  results stage does not observe).

Machine integers are `Nat`; opaque analysis payloads are modelled by
`Nat` (inputs) and `String` (outputs); fallible/absent data is `Option`.
-/

namespace Checkr

/-- Opaque analysis-kind-specific input payload (`Input<A>` in the source);
only identity matters to the core, so it is modelled by `Nat`. -/
abbrev Inp := Nat

/-- `type OutputState = 'None' | 'Stale' | 'Current'` (io.ts line 9,
part_001 line 9). -/
inductive OutputState
  | None
  | Stale
  | Current
deriving DecidableEq

/-- Compilation status states (spec section 6: `{Compiling,
Compiled/Succeeded, CompileError/Failed}`); `io.ts` line 41 compares the
state against the success state `'Succeeded'`. -/
inductive CState
  | Compiling
  | Succeeded
  | CompileError
deriving DecidableEq

/-- Job lifecycle states of the externally-owned job record
(spec section 3; `io.ts` lines 108-129 switch on `'Succeeded'` and
`'Failed'`). -/
inductive JState
  | Queued
  | Running
  | Succeeded
  | Failed
  | Canceled
deriving DecidableEq

/-- `ValidationResult` from the generated wire types
(`src/unnamed/part_000`, `src/inspectify/ui/src/lib/types.ts`). -/
inductive Validation
  | CorrectTerminated
  | CorrectNonTerminated (iterations : Nat)
  | Mismatch (reason : String)
  | TimeOut
deriving DecidableEq

/-- The validation field of an emitted `Results` value:
`ce_core.ValidationResult | { type: 'Failure'; message: string } | null`
(io.ts line 20); the `Failure` variant is synthesized locally. -/
inductive EmittedValidation
  | fromJob (v : Validation)
  | failure (message : String)
deriving DecidableEq

/-- The `analysis_data` blob of a job record, as read by the projector:
`$job.analysis_data?.output?.json`, `...?.reference_output?.json`,
`...?.validation` (io.ts lines 114-116). -/
structure AnalysisData where
  output : Option String
  reference_output : Option String
  validation : Option Validation
deriving DecidableEq

/-- The externally-owned job record observed through the registry
(fields read by the core: `state`, `analysis_data`, `stdout`). -/
structure JobRecord where
  state : JState
  analysis_data : Option AnalysisData
  stdout : String
deriving DecidableEq

/-- `Results<A>` of `io.ts` (lines 15-22).  The `input` field is
`Option`al because the placeholder emissions (io.ts lines 93-99 and the
initial store value, lines 140-146) omit it (the `as Results<A>` cast
hides that it is `undefined` there).  The `job` field holds the
`Readable<Job>` handle of the record; we model the handle by the JobId
that names the record in the shared registry. -/
structure ResultsV where
  input : Option Inp
  outputState : OutputState
  output : Option String
  referenceOutput : Option String
  validation : Option EmittedValidation
  job : Option Nat
deriving DecidableEq

/-- The placeholder emitted by `run` before polling (io.ts lines 93-99):
`{outputState: 'None', output: null, referenceOutput: null,
validation: null, job: null}` — no `input` field. -/
def placeholderV : ResultsV :=
  { input := none, outputState := .None, output := none
    referenceOutput := none, validation := none, job := none }

/-- The emission of the `'Succeeded'` branch (io.ts lines 110-118). -/
def succEmission (v : Inp) (j : Nat) (rec : JobRecord) : ResultsV :=
  { input := some v
    outputState := .Current
    output := rec.analysis_data.bind (·.output)
    referenceOutput := rec.analysis_data.bind (·.reference_output)
    validation := (rec.analysis_data.bind (·.validation)).map .fromJob
    job := some j }

/-- The emission of the `'Failed'` branch (io.ts lines 120-128):
`validation: { type: 'Failure', message: $job.stdout }`. -/
def failEmission (v : Inp) (j : Nat) (rec : JobRecord) : ResultsV :=
  { input := some v
    outputState := .Current
    output := none
    referenceOutput := none
    validation := some (.failure rec.stdout)
    job := some j }

/-- Registry lookup `$jobs[$jobId]` over the shared map of job records
(modelled as an association list). -/
def lookupJob : List (Nat × JobRecord) → Nat → Option JobRecord
  | [], _ => none
  | (k, r) :: rest, j => if k = j then some r else lookupJob rest j

/-- The external event-stream consumer adding or replacing the record of
job `j` in the shared registry map. -/
def upsertJob : List (Nat × JobRecord) → Nat → JobRecord → List (Nat × JobRecord)
  | [], j, r => [(j, r)]
  | (k, r0) :: rest, j, r => if k = j then (j, r) :: rest else (k, r0) :: upsertJob rest j r

/-- What the `job.subscribe` callback of `io.ts` (lines 107-130) emits
when invoked with a record in the given state: one value on `Succeeded`
or `Failed`, nothing otherwise. -/
def subscribeEmit (v : Inp) (j : Nat) (rec : JobRecord) : List ResultsV :=
  match rec.state with
  | .Succeeded => [succEmission v j rec]
  | .Failed => [failEmission v j rec]
  | _ => []

/-- Whether the projector currently has a live subscription
(`cancel = job.subscribe(...)`), is in the poll loop waiting for the
record to appear, or is torn down. -/
inductive ProjMode
  | idle
  | polling
  | subscribed
deriving DecidableEq

/-- State of the `results` derived store of `io.ts`: the last published
`(jobId, cachedInput)` dependency pair, the shared registry map, and the
projector's subscription mode. -/
structure RState where
  dep : Option (Nat × Inp)
  jobs : List (Nat × JobRecord)
  mode : ProjMode
deriving DecidableEq

/-- Events driving the `results` stage of `io.ts`:

* `publish j v` — `jobIdAndMetaDerived` resolved a submission and `set`
  `{jobId := j, input := v, meta}` (io.ts line 60); glitch-freely this
  re-runs `results` with the new consistent pair.
* `jobsEmit j rec` — the shared `jobsStore` emits (a record added or
  replaced by the external consumer); `results` re-runs.
* `notify j rec` — record `j`'s own store updates (state transition
  pushed by the event stream); only a live `job.subscribe` callback
  observes it, the outer `jobsStore` does not re-emit.
* `poll` — one 200-time-unit wakeup of the poll loop
  (io.ts lines 101-105), re-reading the shared map.
* `edit v` — the live `input` cell is written; `results` does not
  depend on `input`, so this does not reach the results stage at all
  (the dispatcher separately fires its best-effort cancellation). -/
inductive REvent
  | publish (j : Nat) (v : Inp)
  | jobsEmit (j : Nat) (rec : JobRecord)
  | notify (j : Nat) (rec : JobRecord)
  | poll
  | edit (v : Inp)
deriving DecidableEq

/-- Re-invocation of the `results` callback (after Svelte ran the
previous invocation's cleanup, which sets `stop` and unsubscribes):
guard `typeof $jobId != 'number' || !$cachedInput` (io.ts line 87), then
`set` the placeholder, then look the job up, subscribing (with the
immediate initial callback) if present and entering the poll loop
otherwise. -/
def rerunStep (dep : Option (Nat × Inp)) (jobs : List (Nat × JobRecord)) :
    ProjMode × List ResultsV :=
  match dep with
  | none => (.idle, [])
  | some (j, v) =>
    match lookupJob jobs j with
    | some rec => (.subscribed, placeholderV :: subscribeEmit v j rec)
    | none => (.polling, [placeholderV])

/-- One step of the `results` stage of `io.ts`, returning the successor
state and the list of `Results` values emitted (in order) by the step. -/
def stepR (s : RState) (e : REvent) : RState × List ResultsV :=
  match e with
  | .publish j v =>
    let r := rerunStep (some (j, v)) s.jobs
    ({ s with dep := some (j, v), mode := r.1 }, r.2)
  | .jobsEmit j rec =>
    let jobs := upsertJob s.jobs j rec
    let r := rerunStep s.dep jobs
    ({ s with jobs := jobs, mode := r.1 }, r.2)
  | .notify j rec =>
    let jobs := upsertJob s.jobs j rec
    match s.mode, s.dep with
    | .subscribed, some (k, v) =>
      if k = j then ({ s with jobs := jobs }, subscribeEmit v j rec)
      else ({ s with jobs := jobs }, [])
    | _, _ => ({ s with jobs := jobs }, [])
  | .poll =>
    match s.mode, s.dep with
    | .polling, some (j, v) =>
      match lookupJob s.jobs j with
      | some rec => ({ s with mode := .subscribed }, subscribeEmit v j rec)
      | none => (s, [])
    | _, _ => (s, [])
  | .edit _ => (s, [])

/-- Run the `results` stage over a trace, concatenating emissions. -/
def runR : RState → List REvent → RState × List ResultsV
  | s, [] => (s, [])
  | s, e :: rest =>
    let p := stepR s e
    let q := runR p.1 rest
    (q.1, p.2 ++ q.2)

/-- The state of the `results` stage before any dispatch resolved:
`jobIdDerived` holds `null`, no subscription. -/
def initR : RState := ⟨none, [], .idle⟩

/-- The latest `(jobId, input)` pair published to the results stage by a
trace, starting from a given current pair. -/
def lastPubFrom (d : Option (Nat × Inp)) : List REvent → Option (Nat × Inp)
  | [] => d
  | .publish j v :: rest => lastPubFrom (some (j, v)) rest
  | _ :: rest => lastPubFrom d rest

/-- The latest `(jobId, input)` pair published by a trace. -/
def lastPub (l : List REvent) : Option (Nat × Inp) := lastPubFrom none l

/-- The JobIds published by a trace. -/
def pubIds (l : List REvent) : List Nat :=
  l.filterMap (fun e => match e with | .publish j _ => some j | _ => none)

/-! ## The `results` stage of the legacy variant (`src/unnamed/part_001`)

`part_001`'s `Results` type (lines 14-20) has no `input` field and
carries `latestJobId` instead of a record handle; its `run` (lines
78-104) emits the placeholder with `latestJobId: $jobId`, and its
`job.subscribe` callback (lines 93-103) handles **only** the
`'Succeeded'` state — there is no `'Failed'` branch.  Its guard is
`typeof $jobId != 'number'` only (line 73): there is no cached input. -/

/-- `Results<A>` of `part_001` (lines 14-20). -/
structure Results1 where
  outputState : OutputState
  output : Option String
  referenceOutput : Option String
  validation : Option EmittedValidation
  latestJobId : Option Nat
deriving DecidableEq

/-- The placeholder of `part_001` (lines 79-85): note
`latestJobId: $jobId`, not `null`. -/
def placeholder1 (j : Nat) : Results1 :=
  { outputState := .None, output := none, referenceOutput := none
    validation := none, latestJobId := some j }

/-- The `'Succeeded'` emission of `part_001` (lines 94-101). -/
def succEmission1 (j : Nat) (rec : JobRecord) : Results1 :=
  { outputState := .Current
    output := rec.analysis_data.bind (·.output)
    referenceOutput := rec.analysis_data.bind (·.reference_output)
    validation := (rec.analysis_data.bind (·.validation)).map .fromJob
    latestJobId := some j }

/-- What `part_001`'s `job.subscribe` callback (lines 93-103) emits:
only the `'Succeeded'` state produces a value; in particular a `Failed`
record produces nothing. -/
def subscribeEmit1 (j : Nat) (rec : JobRecord) : List Results1 :=
  match rec.state with
  | .Succeeded => [succEmission1 j rec]
  | _ => []

/-- State of `part_001`'s `results` store: the last published `jobId`
(no cached input exists in this variant), the shared registry map, and
the subscription mode. -/
structure P1RState where
  dep : Option Nat
  jobs : List (Nat × JobRecord)
  mode : ProjMode
deriving DecidableEq

/-- Events driving `part_001`'s `results` stage (as in `REvent`, but a
publish carries only the jobId, and input edits are irrelevant here). -/
inductive P1Event
  | publish (j : Nat)
  | jobsEmit (j : Nat) (rec : JobRecord)
  | notify (j : Nat) (rec : JobRecord)
  | poll
deriving DecidableEq

/-- Re-invocation of `part_001`'s `results` callback. -/
def rerunStep1 (dep : Option Nat) (jobs : List (Nat × JobRecord)) :
    ProjMode × List Results1 :=
  match dep with
  | none => (.idle, [])
  | some j =>
    match lookupJob jobs j with
    | some rec => (.subscribed, placeholder1 j :: subscribeEmit1 j rec)
    | none => (.polling, [placeholder1 j])

/-- One step of `part_001`'s `results` stage. -/
def stepP1 (s : P1RState) (e : P1Event) : P1RState × List Results1 :=
  match e with
  | .publish j =>
    let r := rerunStep1 (some j) s.jobs
    ({ s with dep := some j, mode := r.1 }, r.2)
  | .jobsEmit j rec =>
    let jobs := upsertJob s.jobs j rec
    let r := rerunStep1 s.dep jobs
    ({ s with jobs := jobs, mode := r.1 }, r.2)
  | .notify j rec =>
    let jobs := upsertJob s.jobs j rec
    match s.mode, s.dep with
    | .subscribed, some k =>
      if k = j then ({ s with jobs := jobs }, subscribeEmit1 j rec)
      else ({ s with jobs := jobs }, [])
    | _, _ => ({ s with jobs := jobs }, [])
  | .poll =>
    match s.mode, s.dep with
    | .polling, some j =>
      match lookupJob s.jobs j with
      | some rec => ({ s with mode := .subscribed }, subscribeEmit1 j rec)
      | none => (s, [])
    | _, _ => (s, [])

/-- Run `part_001`'s `results` stage over a trace. -/
def runP1 : P1RState → List P1Event → P1RState × List Results1
  | s, [] => (s, [])
  | s, e :: rest =>
    let p := stepP1 s e
    let q := runP1 p.1 rest
    (q.1, p.2 ++ q.2)

/-- Initial state of `part_001`'s `results` stage. -/
def initP1 : P1RState := ⟨none, [], .idle⟩

/-! ## The debounced dispatcher

`jobIdAndMetaDerived` (`io.ts` lines 36-71) is a `derived` over
`[input, compilationStatusStore]`.  Every dependency emission first runs
the previous invocation's cleanup (`stop = true; cancel()`) and then
re-invokes the callback, which returns immediately unless
`$compilationStatus?.state == 'Succeeded'`, and otherwise sleeps 200
time units, checks `stop`, issues the submission request (arming an
abort), awaits the response (then re-arming the cancellation to
`api.jobsCancel(jobId)`), and publishes `{jobId, input: $input, meta}`.

We embed it as a machine over timestamped events.  A pending
`setTimeout` is represented by `DRun.sleeping armedAt captured`; time
passing is observed by firing a due timer before processing any event
whose timestamp is at or past `armedAt + 200` (and by `flushD`, which
lets the last armed timer fire after the trace ends). -/

/-- Phase of the currently active dispatcher invocation:

* `idle` — no run alive (callback returned early, or cleaned up);
* `sleeping a v` — in `setTimeout(..., 200)` armed at time `a`, with
  the captured input value `v`;
* `awaiting v` — the submission request for `v` is in flight
  (`cancel` aborts the request);
* `resolved j v` — the request resolved with JobId `j` and the pair was
  published (`cancel` is now `api.jobsCancel(j)`);
* `dead` — the request rejected; nothing handles the rejection
  (`run()`'s promise is never awaited or caught), so the run silently
  terminates. -/
inductive DRun
  | idle
  | sleeping (armedAt : Nat) (captured : Inp)
  | awaiting (captured : Inp)
  | resolved (jobId : Nat) (captured : Inp)
  | dead
deriving DecidableEq

/-- Dispatcher state: the live `input` cell, the last observed
compilation status, the active run, plus the observable histories —
submission requests issued (time, carried input), published
`(time, jobId, input)` triples (`set` on `jobIdAndMetaDerived`),
best-effort job cancellations requested, and aborted requests. -/
structure DState where
  input : Inp
  status : CState
  run : DRun
  submissions : List (Nat × Inp)
  publishes : List (Nat × Nat × Inp)
  cancels : List Nat
  aborts : Nat
deriving DecidableEq

/-- Timestamped events driving the dispatcher:

* `write t v` — the `input` store is set to `v` at time `t`;
* `statusEmit t c` — `compilationStatusStore` emits status `c`;
* `resolve t j` — the in-flight submission request resolves with
  JobId `j`;
* `reject t msg` — the in-flight submission request rejects with a
  network/transport error carrying `msg`. -/
inductive DEvent
  | write (t : Nat) (v : Inp)
  | statusEmit (t : Nat) (c : CState)
  | resolve (t : Nat) (j : Nat)
  | reject (t : Nat) (msg : String)
deriving DecidableEq

/-- Fire the pending debounce timer if it is due at or before time `t`:
the sleeping run wakes (its `stop` flag is still false), issues the
submission request carrying its captured input, and starts awaiting the
response. -/
def fireDue (s : DState) (t : Nat) : DState :=
  match s.run with
  | .sleeping a v =>
    if a + 200 ≤ t then
      { s with run := .awaiting v, submissions := s.submissions ++ [(a + 200, v)] }
    else s
  | _ => s

/-- The cleanup Svelte runs before re-invoking the callback:
`stop = true; cancel()`.  A sleeping run is killed silently; an
in-flight request is aborted; after resolution, `cancel()` requests the
best-effort remote cancellation `api.jobsCancel(jobId)` (io.ts lines
56-58); a dead run's `cancel` aborts an already-settled request, a
no-op. -/
def cleanupRun (s : DState) : DState :=
  match s.run with
  | .awaiting _ => { s with run := .idle, aborts := s.aborts + 1 }
  | .resolved j _ => { s with run := .idle, cancels := s.cancels ++ [j] }
  | _ => { s with run := .idle }

/-- The re-invoked callback of `io.ts` (lines 38-63): return early when
the status is not `'Succeeded'`, else arm the 200-unit quiet-period
timer capturing the current input. -/
def rearm (s : DState) (t : Nat) : DState :=
  if s.status = .Succeeded then { s with run := .sleeping t s.input } else s

/-- One step of the `io.ts` dispatcher. -/
def stepD (s : DState) (e : DEvent) : DState :=
  match e with
  | .write t v =>
    rearm { cleanupRun (fireDue s t) with input := v } t
  | .statusEmit t c =>
    rearm { cleanupRun (fireDue s t) with status := c } t
  | .resolve t j =>
    let s := fireDue s t
    match s.run with
    | .awaiting v =>
      { s with run := .resolved j v, publishes := s.publishes ++ [(t, j, v)] }
    | _ => s
  | .reject t _ =>
    let s := fireDue s t
    match s.run with
    | .awaiting _ => { s with run := .dead }
    | _ => s

/-- Run the `io.ts` dispatcher over a trace of timestamped events. -/
def runD : DState → List DEvent → DState
  | s, [] => s
  | s, e :: rest => runD (stepD s e) rest

/-- After the last event, let any still-armed quiet-period timer fire
(no further dependency emission cancels it). -/
def flushD (s : DState) : DState :=
  match s.run with
  | .sleeping a v =>
    { s with run := .awaiting v, submissions := s.submissions ++ [(a + 200, v)] }
  | _ => s

/-- `true` iff the pending timer (if any) would fire at or before time
`t`; used to delimit a write burst. -/
def timerDueBefore (s : DState) (t : Nat) : Bool :=
  match s.run with
  | .sleeping a _ => a + 200 ≤ t
  | _ => false

/-- A burst of timestamped writes: strictly increasing times with
consecutive gaps strictly below the 200-unit quiet period. -/
def burstOk : List (Nat × Inp) → Bool
  | [] => true
  | [_] => true
  | (t1, _) :: (t2, v2) :: rest =>
    (decide (t1 < t2) && decide (t2 < t1 + 200)) && burstOk ((t2, v2) :: rest)

/-! ### The dispatcher of the legacy variant (`src/unnamed/part_001`)

`jobIdDerived` (lines 33-64) is a `derived` over `[input]` **only**: it
performs no compilation-status check at all, and `set`s just the JobId.
We reuse `DState`; its `status` field is never read by this variant
(the `publishes` input component records the closure's captured input,
which `part_001` does not `set`; it is kept for uniformity). -/

/-- One step of the `part_001` dispatcher: like `stepD` but the quiet
period timer re-arms unconditionally on a write (no readiness check),
and a `compilationStatusStore` emission is not a dependency — it only
lets wall-clock time pass. -/
def stepP1D (s : DState) (e : DEvent) : DState :=
  match e with
  | .write t v =>
    let s := cleanupRun (fireDue s t)
    { s with input := v, run := .sleeping t v }
  | .statusEmit t _ => fireDue s t
  | .resolve t j =>
    let s := fireDue s t
    match s.run with
    | .awaiting v =>
      { s with run := .resolved j v, publishes := s.publishes ++ [(t, j, v)] }
    | _ => s
  | .reject t _ =>
    let s := fireDue s t
    match s.run with
    | .awaiting _ => { s with run := .dead }
    | _ => s

/-- Run the `part_001` dispatcher over a trace. -/
def runP1D : DState → List DEvent → DState
  | s, [] => s
  | s, e :: rest => runP1D (stepP1D s e) rest

/-- The `part_001` dispatcher right after its first subscription at time
`t0` with initial input `v0`: the `derived` callback runs immediately
and unconditionally arms the quiet-period timer (there is no readiness
guard in this variant).  The `status` field is unread; it records the
environment's compilation status at subscription time. -/
def initP1D (t0 : Nat) (v0 : Inp) (c0 : CState) : DState :=
  ⟨v0, c0, .sleeping t0 v0, [], [], [], 0⟩

/-! ## Helper lemmas about the `results` stages -/

theorem mem_subscribeEmit {x : ResultsV} {v : Inp} {j : Nat} {rec : JobRecord}
    (h : x ∈ subscribeEmit v j rec) :
    x = succEmission v j rec ∨ x = failEmission v j rec := by
  obtain ⟨st, ad, so⟩ := rec
  cases st <;> simp_all [subscribeEmit]

/-- Every value emitted by a single step of the `io.ts` results stage is
either the placeholder or a `Succeeded`/`Failed` projection of some
record, pinned to the dependency pair held *after* the step. -/
theorem step_emit_char (s : RState) (e : REvent) (x : ResultsV)
    (hx : x ∈ (stepR s e).2) :
    x = placeholderV ∨
      ∃ j v rec, (stepR s e).1.dep = some (j, v) ∧
        (x = succEmission v j rec ∨ x = failEmission v j rec) := by
  cases e with
  | publish j v =>
    simp only [stepR, rerunStep] at hx ⊢
    cases hjb : lookupJob s.jobs j with
    | none => simp [hjb] at hx; simp [hx]
    | some rec =>
      simp only [hjb, List.mem_cons] at hx
      rcases hx with h | h
      · exact Or.inl h
      · exact Or.inr ⟨j, v, rec, rfl, mem_subscribeEmit h⟩
  | jobsEmit j rec =>
    simp only [stepR, rerunStep] at hx ⊢
    cases hdep : s.dep with
    | none => simp [hdep] at hx
    | some p =>
      obtain ⟨k, v⟩ := p
      cases hjb : lookupJob (upsertJob s.jobs j rec) k with
      | none => simp [hdep, hjb] at hx; simp [hx]
      | some rec' =>
        simp only [hdep, hjb, List.mem_cons] at hx
        rcases hx with h | h
        · exact Or.inl h
        · exact Or.inr ⟨k, v, rec', rfl, mem_subscribeEmit h⟩
  | notify j rec =>
    simp only [stepR] at hx ⊢
    cases hm : s.mode with
    | subscribed =>
      cases hdep : s.dep with
      | none => simp [hm, hdep] at hx
      | some p =>
        obtain ⟨k, v⟩ := p
        by_cases hkj : k = j
        · simp only [hm, hdep, hkj, if_pos rfl] at hx ⊢
          exact Or.inr ⟨j, v, rec, by simp [hdep, hkj], mem_subscribeEmit hx⟩
        · simp [hm, hdep, hkj] at hx
    | idle => simp [hm] at hx
    | polling => simp [hm] at hx
  | poll =>
    simp only [stepR] at hx ⊢
    cases hm : s.mode with
    | polling =>
      cases hdep : s.dep with
      | none => simp [hm, hdep] at hx
      | some p =>
        obtain ⟨j, v⟩ := p
        cases hjb : lookupJob s.jobs j with
        | none => simp [hm, hdep, hjb] at hx
        | some rec =>
          simp only [hm, hdep, hjb] at hx ⊢
          exact Or.inr ⟨j, v, rec, by simp [hdep], mem_subscribeEmit hx⟩
    | idle => simp [hm] at hx
    | subscribed => simp [hm] at hx
  | edit v => simp [stepR] at hx

/-- The dependency pair after a step: only a publish changes it. -/
theorem stepR_dep (s : RState) (e : REvent) :
    (stepR s e).1.dep =
      match e with
      | .publish j v => some (j, v)
      | _ => s.dep := by
  obtain ⟨d, jb, m⟩ := s
  cases e with
  | publish j v => rfl
  | jobsEmit j rec => rfl
  | notify j rec =>
    rcases m <;> rcases d with _ | ⟨k, v⟩ <;> try rfl
    by_cases hkj : k = j <;> simp [stepR, hkj]
  | poll =>
    rcases m <;> rcases d with _ | ⟨j, v⟩ <;> try rfl
    rcases h : lookupJob jb j <;> simp [stepR, h]
  | edit v => rfl

theorem lastPubFrom_append (d : Option (Nat × Inp)) (l1 l2 : List REvent) :
    lastPubFrom d (l1 ++ l2) = lastPubFrom (lastPubFrom d l1) l2 := by
  induction l1 generalizing d with
  | nil => rfl
  | cons e rest ih => cases e <;> simp [lastPubFrom, ih]

/-- Invariant: the dependency pair of the `results` stage is exactly the
latest published `(jobId, cachedInput)` pair. -/
theorem runR_dep (s : RState) (l : List REvent) :
    (runR s l).1.dep = lastPubFrom s.dep l := by
  induction l generalizing s with
  | nil => rfl
  | cons e rest ih =>
    show (runR (stepR s e).1 rest).1.dep = _
    rw [ih]
    cases e <;> simp [lastPubFrom, stepR_dep]

/-- Every value emitted along a run of the `io.ts` results stage is the
placeholder or a `Succeeded`/`Failed` projection pinned to the
dependency pair current at its step. -/
theorem runR_emit_char (l : List REvent) (s : RState) (x : ResultsV)
    (hx : x ∈ (runR s l).2) :
    x = placeholderV ∨
      ∃ j v rec, (x = succEmission v j rec ∨ x = failEmission v j rec) := by
  induction l generalizing s with
  | nil => simp [runR] at hx
  | cons e rest ih =>
    simp only [runR, List.mem_append] at hx
    rcases hx with h | h
    · rcases step_emit_char s e x h with h1 | ⟨j, v, rec, _, h2⟩
      · exact Or.inl h1
      · exact Or.inr ⟨j, v, rec, h2⟩
    · exact ih _ h

theorem mem_subscribeEmit1 {x : Results1} {j : Nat} {rec : JobRecord}
    (h : x ∈ subscribeEmit1 j rec) : x = succEmission1 j rec := by
  obtain ⟨st, ad, so⟩ := rec
  cases st <;> simp_all [subscribeEmit1]

/-- Every value emitted by a single step of `part_001`'s results stage
is a placeholder or a `Succeeded` projection. -/
theorem stepP1_emit_char (s : P1RState) (e : P1Event) (x : Results1)
    (hx : x ∈ (stepP1 s e).2) :
    (∃ j, x = placeholder1 j) ∨ ∃ j rec, x = succEmission1 j rec := by
  cases e with
  | publish j =>
    simp only [stepP1, rerunStep1] at hx
    cases hjb : lookupJob s.jobs j with
    | none => simp [hjb] at hx; exact Or.inl ⟨j, hx⟩
    | some rec =>
      simp only [hjb, List.mem_cons] at hx
      rcases hx with h | h
      · exact Or.inl ⟨j, h⟩
      · exact Or.inr ⟨j, rec, mem_subscribeEmit1 h⟩
  | jobsEmit j rec =>
    simp only [stepP1, rerunStep1] at hx
    cases hdep : s.dep with
    | none => simp [hdep] at hx
    | some k =>
      cases hjb : lookupJob (upsertJob s.jobs j rec) k with
      | none => simp [hdep, hjb] at hx; exact Or.inl ⟨k, hx⟩
      | some rec' =>
        simp only [hdep, hjb, List.mem_cons] at hx
        rcases hx with h | h
        · exact Or.inl ⟨k, h⟩
        · exact Or.inr ⟨k, rec', mem_subscribeEmit1 h⟩
  | notify j rec =>
    simp only [stepP1] at hx
    cases hm : s.mode with
    | subscribed =>
      cases hdep : s.dep with
      | none => simp [hm, hdep] at hx
      | some k =>
        by_cases hkj : k = j
        · simp only [hm, hdep, hkj, if_pos rfl] at hx
          exact Or.inr ⟨j, rec, mem_subscribeEmit1 hx⟩
        · simp [hm, hdep, hkj] at hx
    | idle => simp [hm] at hx
    | polling => simp [hm] at hx
  | poll =>
    simp only [stepP1] at hx
    cases hm : s.mode with
    | polling =>
      cases hdep : s.dep with
      | none => simp [hm, hdep] at hx
      | some j =>
        cases hjb : lookupJob s.jobs j with
        | none => simp [hm, hdep, hjb] at hx
        | some rec =>
          simp only [hm, hdep, hjb] at hx
          exact Or.inr ⟨j, rec, mem_subscribeEmit1 hx⟩
    | idle => simp [hm] at hx
    | subscribed => simp [hm] at hx

/-- `runP1` version of `stepP1_emit_char`. -/
theorem runP1_emit_char (l : List P1Event) (s : P1RState) (x : Results1)
    (hx : x ∈ (runP1 s l).2) :
    (∃ j, x = placeholder1 j) ∨ ∃ j rec, x = succEmission1 j rec := by
  induction l generalizing s with
  | nil => simp [runP1] at hx
  | cons e rest ih =>
    simp only [runP1, List.mem_append] at hx
    rcases hx with h | h
    · exact stepP1_emit_char s e x h
    · exact ih _ h

/-! ## Helper lemmas about the dispatchers -/

theorem runD_append (s : DState) (l1 l2 : List DEvent) :
    runD s (l1 ++ l2) = runD (runD s l1) l2 := by
  induction l1 generalizing s with
  | nil => rfl
  | cons e rest ih => simp [runD, ih]

/-- A write observed while the executor is ready and before the pending
timer (if any) is due: the previous run is cancelled silently (its
submission request, if already in flight, is aborted / its job
cancelled, but no new submission is issued) and the quiet-period timer
is re-armed, capturing the new input value. -/
theorem stepD_write_ready (s : DState) (t : Nat) (v : Inp)
    (hst : s.status = CState.Succeeded) (hdue : timerDueBefore s t = false) :
    (stepD s (.write t v)).run = .sleeping t v ∧
    (stepD s (.write t v)).submissions = s.submissions ∧
    (stepD s (.write t v)).status = CState.Succeeded := by
  obtain ⟨inp, st, run, subs, pubs, cns, ab⟩ := s
  subst hst
  cases run with
  | sleeping a u =>
    have h : ¬ (a + 200 ≤ t) := by simpa [timerDueBefore] using hdue
    simp [stepD, fireDue, cleanupRun, rearm, h]
  | idle => simp [stepD, fireDue, cleanupRun, rearm]
  | awaiting u => simp [stepD, fireDue, cleanupRun, rearm]
  | resolved j u => simp [stepD, fireDue, cleanupRun, rearm]
  | dead => simp [stepD, fireDue, cleanupRun, rearm]

/-- Processing a burst tail: each write lands strictly before the
pending timer is due, so it cancels the pending dispatch and re-arms
the timer; no submission is issued along the way. -/
theorem runD_burst (ws : List (Nat × Inp)) (s : DState) (t : Nat) (v : Inp)
    (hst : s.status = CState.Succeeded) (hrun : s.run = .sleeping t v)
    (hb : burstOk ((t, v) :: ws) = true) :
    (runD s (ws.map fun p => DEvent.write p.1 p.2)).run
        = .sleeping (ws.getLastD (t, v)).1 (ws.getLastD (t, v)).2 ∧
    (runD s (ws.map fun p => DEvent.write p.1 p.2)).submissions
        = s.submissions := by
  induction ws generalizing s t v with
  | nil => exact ⟨by simpa [runD, List.getLastD] using hrun, rfl⟩
  | cons w rest ih =>
    obtain ⟨t2, v2⟩ := w
    have hb' : (t < t2 ∧ t2 < t + 200) ∧ burstOk ((t2, v2) :: rest) = true := by
      simpa [burstOk, Bool.and_eq_true] using hb
    have hdue : timerDueBefore s t2 = false := by
      simp only [timerDueBefore, hrun]
      simpa using by omega
    have h1 := stepD_write_ready s t2 v2 hst hdue
    simp only [List.map_cons, runD]
    have h2 := ih (stepD s (.write t2 v2)) t2 v2 h1.2.2 h1.1 hb'.2
    rw [List.getLastD_cons]
    exact ⟨h2.1, by rw [h2.2, h1.2.1]⟩

theorem flushD_sleeping (s : DState) (a : Nat) (v : Inp)
    (hrun : s.run = .sleeping a v) :
    (flushD s).submissions = s.submissions ++ [(a + 200, v)] := by
  simp [flushD, hrun]

theorem flushD_idle (s : DState) (hrun : s.run = .idle) : flushD s = s := by
  simp [flushD, hrun]

/-- `part_001` analogue of `stepD_write_ready`: no readiness condition
exists, the timer is re-armed unconditionally. -/
theorem stepP1D_write (s : DState) (t : Nat) (v : Inp)
    (hdue : timerDueBefore s t = false) :
    (stepP1D s (.write t v)).run = .sleeping t v ∧
    (stepP1D s (.write t v)).submissions = s.submissions := by
  obtain ⟨inp, st, run, subs, pubs, cns, ab⟩ := s
  cases run with
  | sleeping a u =>
    have h : ¬ (a + 200 ≤ t) := by simpa [timerDueBefore] using hdue
    simp [stepP1D, fireDue, cleanupRun, h]
  | idle => simp [stepP1D, fireDue, cleanupRun]
  | awaiting u => simp [stepP1D, fireDue, cleanupRun]
  | resolved j u => simp [stepP1D, fireDue, cleanupRun]
  | dead => simp [stepP1D, fireDue, cleanupRun]

/-- `part_001` analogue of `runD_burst`. -/
theorem runP1D_burst (ws : List (Nat × Inp)) (s : DState) (t : Nat) (v : Inp)
    (hrun : s.run = .sleeping t v)
    (hb : burstOk ((t, v) :: ws) = true) :
    (runP1D s (ws.map fun p => DEvent.write p.1 p.2)).run
        = .sleeping (ws.getLastD (t, v)).1 (ws.getLastD (t, v)).2 ∧
    (runP1D s (ws.map fun p => DEvent.write p.1 p.2)).submissions
        = s.submissions := by
  induction ws generalizing s t v with
  | nil => exact ⟨by simpa [runP1D, List.getLastD] using hrun, rfl⟩
  | cons w rest ih =>
    obtain ⟨t2, v2⟩ := w
    have hb' : (t < t2 ∧ t2 < t + 200) ∧ burstOk ((t2, v2) :: rest) = true := by
      simpa [burstOk, Bool.and_eq_true] using hb
    have hdue : timerDueBefore s t2 = false := by
      simp only [timerDueBefore, hrun]
      simpa using by omega
    have h1 := stepP1D_write s t2 v2 hdue
    simp only [List.map_cons, runP1D]
    have h2 := ih (stepP1D s (.write t2 v2)) t2 v2 h1.1 hb'.2
    rw [List.getLastD_cons]
    exact ⟨h2.1, by rw [h2.2, h1.2]⟩

/-- An event trace along which the executor never reports ready: input
writes and compilation-status emissions whose state is not the success
state (and no submission is resolved or rejected, as none is issued). -/
def notReadyEvents : List DEvent → Bool
  | [] => true
  | .write _ _ :: r => notReadyEvents r
  | .statusEmit _ c :: r => decide (c ≠ CState.Succeeded) && notReadyEvents r
  | _ :: _ => false

/-- The value held by the `input` cell after a trace of events, starting
from `v`. -/
def lastWriteVal : List DEvent → Inp → Inp
  | [], v => v
  | .write _ w :: r, _ => lastWriteVal r w
  | _ :: r, v => lastWriteVal r v

/-- A write observed while the executor is not ready: the callback
returns before arming any timer (io.ts line 41), so the machine only
records the new input value. -/
theorem stepD_write_notReady (s : DState) (t : Nat) (v : Inp)
    (hst : s.status ≠ CState.Succeeded) (hrun : s.run = .idle) :
    stepD s (.write t v) = { s with input := v } := by
  obtain ⟨inp, st, run, subs, pubs, cns, ab⟩ := s
  cases run with
  | idle => simp [stepD, fireDue, cleanupRun, rearm, hst]
  | sleeping a u => exact absurd hrun (by simp)
  | awaiting u => exact absurd hrun (by simp)
  | resolved j u => exact absurd hrun (by simp)
  | dead => exact absurd hrun (by simp)

/-- A status emission that is still not the success state: the callback
returns before arming any timer. -/
theorem stepD_status_notReady (s : DState) (t : Nat) (c : CState)
    (hc : c ≠ CState.Succeeded) (hrun : s.run = .idle) :
    stepD s (.statusEmit t c) = { s with status := c } := by
  obtain ⟨inp, st, run, subs, pubs, cns, ab⟩ := s
  cases run with
  | idle => simp [stepD, fireDue, cleanupRun, rearm, hc]
  | sleeping a u => exact absurd hrun (by simp)
  | awaiting u => exact absurd hrun (by simp)
  | resolved j u => exact absurd hrun (by simp)
  | dead => exact absurd hrun (by simp)

/-- While the executor is not ready, `io.ts`'s dispatcher arms no timer
and issues no submission, no matter how the input churns; only the
`input` cell (and the observed status) evolve. -/
theorem runD_notReady (evs : List DEvent) (s : DState)
    (hst : s.status ≠ CState.Succeeded) (hrun : s.run = .idle)
    (h : notReadyEvents evs = true) :
    (runD s evs).run = .idle ∧ (runD s evs).status ≠ CState.Succeeded ∧
    (runD s evs).submissions = s.submissions ∧
    (runD s evs).input = lastWriteVal evs s.input := by
  induction evs generalizing s with
  | nil => exact ⟨hrun, hst, rfl, rfl⟩
  | cons e rest ih =>
    cases e with
    | write t v =>
      rw [show runD s (.write t v :: rest) = runD (stepD s (.write t v)) rest from rfl,
        stepD_write_notReady s t v hst hrun]
      have h' : notReadyEvents rest = true := by simpa [notReadyEvents] using h
      exact ih { s with input := v } hst hrun h'
    | statusEmit t c =>
      have hc : c ≠ CState.Succeeded ∧ notReadyEvents rest = true := by
        simpa [notReadyEvents, Bool.and_eq_true] using h
      rw [show runD s (.statusEmit t c :: rest) = runD (stepD s (.statusEmit t c)) rest from rfl,
        stepD_status_notReady s t c hc.1 hrun]
      exact ih { s with status := c } hc.1 hrun hc.2
    | resolve t j => simp [notReadyEvents] at h
    | reject t msg => simp [notReadyEvents] at h

/-- When the status flips to success while idle, the quiet-period timer
is armed at once with the current input value. -/
theorem stepD_status_ready (s : DState) (t : Nat) (hrun : s.run = .idle) :
    stepD s (.statusEmit t CState.Succeeded)
      = { s with status := CState.Succeeded, run := .sleeping t s.input } := by
  obtain ⟨inp, st, run, subs, pubs, cns, ab⟩ := s
  cases run with
  | idle => simp [stepD, fireDue, cleanupRun, rearm]
  | sleeping a u => exact absurd hrun (by simp)
  | awaiting u => exact absurd hrun (by simp)
  | resolved j u => exact absurd hrun (by simp)
  | dead => exact absurd hrun (by simp)

/-- Looking a job up after the consumer upserted a different JobId gives
the same answer as before. -/
theorem lookupJob_upsert_ne (js : List (Nat × JobRecord)) (j2 j : Nat)
    (r2 : JobRecord) (h : j2 ≠ j) :
    lookupJob (upsertJob js j2 r2) j = lookupJob js j := by
  induction js with
  | nil => simp [upsertJob, lookupJob, h]
  | cons p rest ih =>
    obtain ⟨k, r⟩ := p
    by_cases hk : k = j2
    · subst hk
      simp [upsertJob, lookupJob, h]
    · by_cases hkj : k = j <;> simp [upsertJob, lookupJob, hk, hkj, ih, Ne.symm h]

/-- While the awaited JobId is absent from the shared registry, each
wakeup of the poll loop (`while (!stop && !job) { job = $jobs[$jobId];
... }`, io.ts lines 102-105) re-reads the map, finds nothing, sleeps
again: the machine state is unchanged, and nothing is emitted, for any
number of iterations. -/
theorem runR_poll_absent (n : Nat) (s : RState) (j : Nat) (v : Inp)
    (hm : s.mode = .polling) (hdep : s.dep = some (j, v))
    (hjb : lookupJob s.jobs j = none) :
    runR s (List.replicate n .poll) = (s, []) := by
  induction n with
  | zero => rfl
  | succ n ih =>
    have hstep : stepR s .poll = (s, []) := by
      simp [stepR, hm, hdep, hjb]
    simp [List.replicate_succ, runR, hstep, ih]

/-- If the dependency pair never names job `j` (initially and along all
publishes of the trace), no emitted value ever carries `job = j`: after
a newer dispatch is published, the superseded job's transitions cannot
reach the `results` value. -/
theorem runR_job_not_emitted (q : List REvent) (s : RState) (j : Nat)
    (hdep : ∀ v, s.dep ≠ some (j, v)) (hq : j ∉ pubIds q)
    (x : ResultsV) (hx : x ∈ (runR s q).2) : x.job ≠ some j := by
  induction q generalizing s with
  | nil => simp [runR] at hx
  | cons e rest ih =>
    have hdep' : ∀ v, (stepR s e).1.dep ≠ some (j, v) := by
      intro v
      rw [stepR_dep]
      cases e with
      | publish j0 v0 =>
        have : j0 ≠ j := by
          intro hj
          exact hq (by simp [pubIds, hj])
        simp
        intro hj
        exact absurd hj this
      | jobsEmit j0 rec => exact hdep v
      | notify j0 rec => exact hdep v
      | poll => exact hdep v
      | edit v0 => exact hdep v
    have hq' : j ∉ pubIds rest := by
      intro hmem
      apply hq
      cases e <;> simp [pubIds] at hmem ⊢ <;> simp [hmem]
    simp only [runR, List.mem_append] at hx
    rcases hx with h | h
    · rcases step_emit_char s e x h with h1 | ⟨j0, v0, rec, hd, hform⟩
      · subst h1
        simp [placeholderV]
      · have : j0 ≠ j := by
          intro hj
          subst hj
          exact hdep' v0 hd
        rcases hform with h2 | h2 <;> subst h2 <;>
          simp [succEmission, failEmission, this]
    · exact ih (stepR s e).1 hdep' hq' h

/-- The latest publish of `p ++ [ev]` equals the dependency pair right
after processing `ev` from the state reached by `p`. -/
theorem stepR_dep_lastPub (p : List REvent) (ev : REvent) :
    lastPub (p ++ [ev]) = (stepR (runR initR p).1 ev).1.dep := by
  rw [lastPub, lastPubFrom_append, stepR_dep]
  have hdep : (runR initR p).1.dep = lastPubFrom none p := runR_dep initR p
  cases ev <;> simp [lastPubFrom, lastPub, ← hdep]

/-- A sample running record. -/
def recRunning : JobRecord := ⟨.Running, none, ""⟩

/-- A sample succeeded record with output, reference output and a
validation outcome. -/
def recSucc : JobRecord :=
  ⟨.Succeeded, some ⟨some "out", some "ref", some .CorrectTerminated⟩, ""⟩

/-- A sample failed record whose diagnostic output is `"boom"`. -/
def recFailed : JobRecord := ⟨.Failed, none, "boom"⟩

/-! ## Claims -/

/-- Claim C1 as stated: if the Input changes (`edit`) after a job was
submitted and published but before its Results reached `Current`, the
superseded job's eventual `Succeeded`/`Failed` transition never updates
the Results value (no later emission references that job). -/
def claimC1 : Prop :=
  ∀ (p q : List REvent) (v : Inp) (j : Nat) (w : Inp),
    lastPub p = some (j, w) →
    (∀ x ∈ (runR initR p).2, ¬(x.job = some j ∧ x.outputState = OutputState.Current)) →
    j ∉ pubIds q →
    ∀ x ∈ (runR (runR initR p).1 (REvent.edit v :: q)).2, x.job ≠ some j

/-- C1 fails on the code: job 1 is published for input 10 and still
`Running` when the input is edited to 11; the best-effort remote
cancellation is only fire-and-forget, and until the *newer* dispatch
resolves and publishes, the projector remains subscribed to job 1
(`results` does not depend on the `input` store), so job 1's later
`Succeeded` notification emits a `Current` Results pinned to the
superseded input 10. -/
theorem c1_counterexample : ¬ claimC1 := by
  intro h
  have h2 := h [.publish 1 10, .jobsEmit 1 recRunning] [.notify 1 recSucc] 11 1 10
    (by decide) (by decide) (by decide)
    (succEmission 10 1 recSucc) (by decide)
  exact h2 (by decide)

/-- Claim C1, amended: the part of the ordering guarantee the code does
enforce.  Once a newer dispatch `(j', v')` is published to the results
stage, its re-run tears down the previous subscription, and every later
emission is pinned to the then-current dependency pair; hence no later
emission ever references the superseded job `j` (a Results pinned to an
older Input can never overwrite one pinned to a newer Input).  What the
claim wrongly adds is the window *before* the newer publish: there the
superseded job's transitions still update Results
(see `c1_counterexample`). -/
theorem c1_no_stale_after_newer_publish (p : List REvent) (j' : Nat) (v' : Inp)
    (q : List REvent) (j : Nat) (x : ResultsV)
    (hne : j ≠ j') (hq : j ∉ pubIds q)
    (hx : x ∈ (runR (runR initR (p ++ [REvent.publish j' v'])).1 q).2) :
    x.job ≠ some j := by
  apply runR_job_not_emitted q _ j _ hq x hx
  intro v
  have hdep : (runR initR (p ++ [REvent.publish j' v'])).1.dep = some (j', v') := by
    rw [runR_dep, lastPubFrom_append]
    rfl
  rw [hdep]
  simp [Ne.symm hne]

/-- Witness for C1's amended theorem at a concrete trace: after job 2 is
published for input 5, a registry emission projecting job 2's success
yields emissions that never reference the stale job 1. -/
theorem c1_witness : (succEmission 5 2 recSucc).job ≠ some 1 :=
  c1_no_stale_after_newer_publish [] 2 5 [.jobsEmit 2 recSucc] 1
    (succEmission 5 2 recSucc) (by decide) (by decide) (by decide)

/-- Claim C2: a burst of writes whose consecutive gaps are below the
200-unit quiet period, with the executor ready throughout, issues
exactly one submission carrying the last-written input; each write
cancels the pending dispatch and re-arms the timer.  Holds in both
variants (`io.ts`, and `part_001` which has no readiness guard to
satisfy). -/
theorem c2_debounce_single_submission :
    (∀ (s : DState) (t1 : Nat) (v1 : Inp) (ws : List (Nat × Inp)),
       s.status = CState.Succeeded →
       timerDueBefore s t1 = false →
       burstOk ((t1, v1) :: ws) = true →
       (runD s (((t1, v1) :: ws).map fun p => DEvent.write p.1 p.2)).run
           = .sleeping (ws.getLastD (t1, v1)).1 (ws.getLastD (t1, v1)).2 ∧
       (flushD (runD s (((t1, v1) :: ws).map fun p => DEvent.write p.1 p.2))).submissions
           = s.submissions ++ [((ws.getLastD (t1, v1)).1 + 200, (ws.getLastD (t1, v1)).2)]) ∧
    (∀ (s : DState) (t1 : Nat) (v1 : Inp) (ws : List (Nat × Inp)),
       timerDueBefore s t1 = false →
       burstOk ((t1, v1) :: ws) = true →
       (flushD (runP1D s (((t1, v1) :: ws).map fun p => DEvent.write p.1 p.2))).submissions
           = s.submissions ++ [((ws.getLastD (t1, v1)).1 + 200, (ws.getLastD (t1, v1)).2)]) := by
  constructor
  · intro s t1 v1 ws hst hdue hb
    simp only [List.map_cons, runD]
    have h1 := stepD_write_ready s t1 v1 hst hdue
    have h2 := runD_burst ws (stepD s (.write t1 v1)) t1 v1 h1.2.2 h1.1 hb
    refine ⟨h2.1, ?_⟩
    rw [flushD_sleeping _ _ _ h2.1, h2.2, h1.2.1]
  · intro s t1 v1 ws hdue hb
    simp only [List.map_cons, runP1D]
    have h1 := stepP1D_write s t1 v1 hdue
    have h2 := runP1D_burst ws (stepP1D s (.write t1 v1)) t1 v1 h1.1 hb
    rw [flushD_sleeping _ _ _ h2.1, h2.2, h1.2]

/-- Witness for C2 at a concrete burst [(0,1),(100,2),(150,3)]: one
submission, at time 350, carrying the last value 3. -/
theorem c2_witness :
    (flushD (runD ⟨0, CState.Succeeded, .idle, [], [], [], 0⟩
        (([((0 : Nat), (1 : Inp)), (100, 2), (150, 3)]).map
          fun p => DEvent.write p.1 p.2))).submissions
      = [(350, 3)] := by
  have h := c2_debounce_single_submission.1 ⟨0, CState.Succeeded, .idle, [], [], [], 0⟩
      0 1 [(100, 2), (150, 3)] rfl (by decide) (by decide)
  exact h.2.trans (by decide)

/-- Claim C3 as stated: in *every* projector of the program ("for every
active resolution"), a transition of the observed record to `Failed`
emits `{outputState: Current, output: null, referenceOutput: null,
validation: Failure(diagnostic), job: record}`. -/
def claimC3 : Prop :=
  (∀ (s : RState) (j : Nat) (v : Inp) (rec : JobRecord),
     s.mode = .subscribed → s.dep = some (j, v) → rec.state = .Failed →
     (stepR s (.notify j rec)).2
       = [{ input := some v, outputState := .Current, output := none,
            referenceOutput := none,
            validation := some (.failure rec.stdout), job := some j }]) ∧
  (∀ (s : P1RState) (j : Nat) (rec : JobRecord),
     s.mode = .subscribed → s.dep = some j → rec.state = .Failed →
     ∃ x ∈ (stepP1 s (.notify j rec)).2,
       x.outputState = .Current ∧ x.validation = some (.failure rec.stdout))

/-- C3 fails for the `part_001` variant: its `job.subscribe` callback
(lines 93-103) handles only `'Succeeded'`; a `Failed` transition emits
nothing at all. -/
theorem c3_counterexample : ¬ claimC3 := by
  intro h
  rcases h.2 ⟨some 1, [(1, recRunning)], .subscribed⟩ 1 recFailed rfl rfl rfl
    with ⟨x, hx, _⟩
  have he : (stepP1 ⟨some 1, [(1, recRunning)], .subscribed⟩
      (.notify 1 recFailed)).2 = [] := by decide
  rw [he] at hx
  exact absurd hx (List.not_mem_nil x)

/-- Claim C3, amended to the `io.ts` variant, where it holds exactly: a
`Failed` transition of the subscribed record emits precisely the claimed
value — `Current`, null output and reference output, a locally
synthesized `Failure` carrying the record's `stdout`, pinned input, and
the record as `job`.  (`part_001` emits nothing on `Failed`, see
`c3_counterexample`.) -/
theorem c3_failed_emission (s : RState) (j : Nat) (v : Inp) (rec : JobRecord)
    (hm : s.mode = .subscribed) (hdep : s.dep = some (j, v))
    (hst : rec.state = .Failed) :
    (stepR s (.notify j rec)).2
      = [{ input := some v, outputState := .Current, output := none,
           referenceOutput := none,
           validation := some (.failure rec.stdout), job := some j }] := by
  simp [stepR, hm, hdep, subscribeEmit, hst, failEmission]

/-- Witness for C3's amended theorem at a concrete subscribed state and
a concrete failed record. -/
theorem c3_witness :
    (stepR ⟨some (1, 10), [(1, recRunning)], .subscribed⟩
        (.notify 1 recFailed)).2
      = [{ input := some 10, outputState := .Current, output := none,
           referenceOutput := none, validation := some (.failure "boom"),
           job := some 1 }] :=
  c3_failed_emission _ 1 10 recFailed rfl rfl rfl

/-- The publish events that a dispatcher history feeds into the results
stage (each `set {jobId, input}` re-runs `results` with the new pair). -/
def publishEvents (l : List (Nat × Nat × Inp)) : List REvent :=
  l.map fun p => .publish p.2.1 p.2.2

/-- Claim C4 as stated: a submission request rejected with a network
error (not a cancellation) surfaces a Failure-shaped Results —
`{outputState: Current, output: null, referenceOutput: null, validation:
Failure(raw message), job: null}` — bypassing resolver and projector. -/
def claimC4 : Prop :=
  ∀ (s : DState) (dtr : List DEvent) (t : Nat) (msg : String),
    DEvent.reject t msg ∈ dtr →
    ∃ x ∈ (runR initR (publishEvents (runD s dtr).publishes)).2,
      x.outputState = .Current ∧ x.output = none ∧ x.referenceOutput = none ∧
      x.validation = some (.failure msg) ∧ x.job = none

/-- C4 fails on the code: `run()`'s promise in `jobIdAndMetaDerived` is
neither awaited nor caught, so a rejected `await analysisRequest.data`
is an unhandled rejection — nothing is published, nothing reaches the
results stage, and no Failure-shaped Results is ever emitted.  Concrete
run: write 7 at time 0, request rejects at time 300 with "boom"; the
binding's Results emissions are empty. -/
theorem c4_counterexample : ¬ claimC4 := by
  intro h
  rcases h ⟨0, CState.Succeeded, .idle, [], [], [], 0⟩
      [.write 0 7, .reject 300 "boom"] 300 "boom" (by decide) with ⟨x, hx, _⟩
  have he : (runR initR (publishEvents
      (runD ⟨0, CState.Succeeded, .idle, [], [], [], 0⟩
        [.write 0 7, .reject 300 "boom"]).publishes)).2 = [] := by decide
  rw [he] at hx
  exact absurd hx (List.not_mem_nil x)

/-- Claim C4, amended: a rejected submission is silently dropped — the
rejection step publishes nothing and issues nothing (the dispatcher
state beyond the run phase is exactly what the mere passage of time had
produced), and no Results value with a `Failure` validation is ever
emitted without a `job`: `Failure`-validation emissions come only from
the projector's `Failed` branch, which always carries the record. -/
theorem c4_submission_error_silent :
    (∀ (s : DState) (t : Nat) (msg : String),
       (stepD s (.reject t msg)).publishes = (fireDue s t).publishes ∧
       (stepD s (.reject t msg)).submissions = (fireDue s t).submissions) ∧
    (∀ (s : RState) (e : REvent) (x : ResultsV) (m : String),
       x ∈ (stepR s e).2 → x.validation = some (.failure m) →
       ∃ j, x.job = some j) := by
  constructor
  · intro s t msg
    refine ⟨?_, ?_⟩ <;> (simp only [stepD]; split <;> rfl)
  · intro s e x m hx hval
    rcases step_emit_char s e x hx with h1 | ⟨j0, v0, rec, _, h2 | h2⟩
    · subst h1; simp [placeholderV] at hval
    · subst h2
      simp only [succEmission] at hval
      cases hv : rec.analysis_data.bind (·.validation) with
      | none => rw [hv] at hval; simp at hval
      | some w => rw [hv] at hval; simp at hval
    · subst h2
      exact ⟨j0, rfl⟩

/-- Witness for C4's amended theorem: the concrete `Failure`-validation
emission of a failed job carries its record. -/
theorem c4_witness : ∃ j, (failEmission 10 1 recFailed).job = some j :=
  c4_submission_error_silent.2 ⟨some (1, 10), [(1, recRunning)], .subscribed⟩
    (.notify 1 recFailed) (failEmission 10 1 recFailed) "boom"
    (by decide) (by decide)

/-- Claim C5 as stated: there is a bounded retry budget after which a
poll loop whose JobId never appears in the registry stops and surfaces a
Failure-shaped Results. -/
def claimC5 : Prop :=
  ∃ B : Nat, ∀ (s : RState) (j : Nat) (v : Inp),
    s.mode = .polling → s.dep = some (j, v) → lookupJob s.jobs j = none →
    ∃ x ∈ (runR s (List.replicate B .poll)).2, ∃ m, x.validation = some (.failure m)

/-- C5 fails on the code: `while (!stop && !job) { ... }` has no retry
bound and no timeout outcome; for any purported budget `B`, a state
polling for an absent JobId emits nothing after `B` polls. -/
theorem c5_counterexample : ¬ claimC5 := by
  rintro ⟨B, h⟩
  have h2 := h ⟨some (1, 10), [], .polling⟩ 1 10 rfl rfl rfl
  rw [runR_poll_absent B ⟨some (1, 10), [], .polling⟩ 1 10 rfl rfl rfl] at h2
  simp at h2

/-- Claim C5, amended: the resolver's poll loop is unbounded — while the
JobId is absent from the registry, any number of 200-unit poll wakeups
leaves the state unchanged and emits nothing (no timeout Failure
exists); the loop ends only by the record appearing or by
supersession/teardown setting `stop`. -/
theorem c5_poll_unbounded (n : Nat) (s : RState) (j : Nat) (v : Inp)
    (hm : s.mode = .polling) (hdep : s.dep = some (j, v))
    (hjb : lookupJob s.jobs j = none) :
    (runR s (List.replicate n .poll)).1 = s ∧
    (runR s (List.replicate n .poll)).2 = [] := by
  rw [runR_poll_absent n s j v hm hdep hjb]
  exact ⟨rfl, rfl⟩

/-- Witness for C5's amended theorem: seven polls for the absent job 1
emit nothing. -/
theorem c5_witness :
    (runR ⟨some (1, 10), [], .polling⟩ (List.replicate 7 .poll)).2 = [] :=
  (c5_poll_unbounded 7 ⟨some (1, 10), [], .polling⟩ 1 10 rfl rfl rfl).2

/-- Claim C6 as stated, over both variants: while the compilation status
is not the success state, no job submission occurs regardless of input
churn; once it becomes the success state, the most recent input is
submitted within one debounce interval with no further edit. -/
def claimC6 : Prop :=
  (∀ (s : DState) (evs : List DEvent) (t : Nat),
     s.status ≠ CState.Succeeded → s.run = .idle → notReadyEvents evs = true →
     (flushD (runD s evs)).submissions = s.submissions ∧
     (flushD (runD s (evs ++ [.statusEmit t CState.Succeeded]))).submissions
       = s.submissions ++ [(t + 200, lastWriteVal evs s.input)]) ∧
  (∀ (v0 : Inp) (c0 : CState) (evs : List DEvent),
     c0 ≠ CState.Succeeded → notReadyEvents evs = true →
     (flushD (runP1D (initP1D 0 v0 c0) evs)).submissions = [])

/-- C6 fails for the `part_001` variant: its `jobIdDerived` is derived
from `[input]` alone and performs no compilation-status check, so with
the compiler merely `Compiling` it still submits the initial input 7 one
quiet period after subscription. -/
theorem c6_counterexample : ¬ claimC6 := by
  intro h
  have h2 := h.2 7 CState.Compiling [] (by decide) rfl
  exact absurd h2 (by decide)

/-- Claim C6, amended to the `io.ts` variant, where it holds: while the
status is not `'Succeeded'`, the callback returns before arming any
timer, so no submission is ever issued no matter how the input churns
(only the input cell evolves); the first status emission with
`'Succeeded'` arms the timer at once, and the then-current (most
recently written) input is submitted one debounce interval later with no
further edit.  (`part_001` has no readiness gating at all, see
`c6_counterexample`.) -/
theorem c6_ready_gating (s : DState) (evs : List DEvent) (t : Nat)
    (hst : s.status ≠ CState.Succeeded) (hrun : s.run = .idle)
    (h : notReadyEvents evs = true) :
    (flushD (runD s evs)).submissions = s.submissions ∧
    (runD s evs).input = lastWriteVal evs s.input ∧
    (flushD (runD s (evs ++ [.statusEmit t CState.Succeeded]))).submissions
      = s.submissions ++ [(t + 200, lastWriteVal evs s.input)] := by
  have h1 := runD_notReady evs s hst hrun h
  refine ⟨?_, h1.2.2.2, ?_⟩
  · rw [flushD_idle _ h1.1, h1.2.2.1]
  · rw [runD_append]
    simp only [runD]
    rw [stepD_status_ready _ _ h1.1]
    rw [flushD_sleeping _ t (runD s evs).input rfl]
    simp only []
    rw [h1.2.2.1, h1.2.2.2]

/-- Witness for C6's amended theorem: with the compiler in error state,
writes 3 then 4 produce no submission; readiness at time 500 submits the
pending input 4 at time 700. -/
theorem c6_witness :
    (flushD (runD ⟨0, CState.CompileError, .idle, [], [], [], 0⟩
        ([.write 10 3, .write 400 4] ++ [.statusEmit 500 CState.Succeeded]))).submissions
      = [(700, 4)] := by
  have h := c6_ready_gating ⟨0, CState.CompileError, .idle, [], [], [], 0⟩
      [.write 10 3, .write 400 4] 500 (by decide) rfl (by decide)
  exact h.2.2.trans (by decide)

/-- Claim C7: every emitted Results value that reports a job (`job` is
the record of some JobId `j`; the placeholders report none and carry no
input at all) has its `input` field equal to the Input published
together with `j` by the dispatch that submitted it — the latest
publish at emission time — never the live input cell, which the results
stage does not even observe (`edit` events change no emission). -/
theorem c7_input_pinned (p : List REvent) (ev : REvent) (x : ResultsV) (j : Nat)
    (hx : x ∈ (stepR (runR initR p).1 ev).2) (hj : x.job = some j) :
    ∃ v, x.input = some v ∧ lastPub (p ++ [ev]) = some (j, v) := by
  rcases step_emit_char _ ev x hx with h1 | ⟨j0, v0, rec, hd, hform⟩
  · subst h1
    simp [placeholderV] at hj
  · have hx_job : x.job = some j0 := by
      rcases hform with h2 | h2 <;> subst h2 <;> rfl
    have hjj : j0 = j := by
      rw [hx_job] at hj
      exact Option.some.inj hj
    subst hjj
    refine ⟨v0, ?_, ?_⟩
    · rcases hform with h2 | h2 <;> subst h2 <;> rfl
    · rw [stepR_dep_lastPub]
      exact hd

/-- Witness for C7: job 1's success emission carries input 10, the value
published with job 1. -/
theorem c7_witness :
    ∃ v, (succEmission 10 1 recSucc).input = some v ∧
      lastPub ([REvent.publish 1 10] ++ [REvent.jobsEmit 1 recSucc]) = some (1, v) :=
  c7_input_pinned [.publish 1 10] (.jobsEmit 1 recSucc)
    (succEmission 10 1 recSucc) 1 (by decide) rfl

/-- Claim C8: on every new resolved dispatch reaching the results stage,
the first emission — before any job-record state is observed, even if
the record is already present and terminal — is exactly the placeholder
`{outputState: None, output: null, referenceOutput: null, validation:
null, job: null}` (io.ts); `part_001`'s first emission likewise has
`None`/null in every field the claim names that it has. -/
theorem c8_initial_placeholder :
    (∀ (s : RState) (j : Nat) (v : Inp),
       ((stepR s (.publish j v)).2).head?
         = some { input := none, outputState := OutputState.None, output := none,
                  referenceOutput := none, validation := none, job := none }) ∧
    (∀ (s : P1RState) (j : Nat),
       ∃ x, ((stepP1 s (.publish j)).2).head? = some x ∧
         x.outputState = OutputState.None ∧ x.output = none ∧
         x.referenceOutput = none ∧ x.validation = none) := by
  constructor
  · intro s j v
    simp only [stepR, rerunStep]
    cases lookupJob s.jobs j <;> rfl
  · intro s j
    refine ⟨placeholder1 j, ?_, rfl, rfl, rfl, rfl⟩
    simp only [stepP1, rerunStep1]
    cases lookupJob s.jobs j <;> rfl

/-- Claim C9: the shared `jobsStore` is a dependency of `results`, so
*any* emission of it (here: the consumer upserting some other binding's
job `j2`) tears the projector down and restarts it: the placeholder
(`None`) is re-emitted and the same record is re-subscribed — and since
the record is already `Succeeded`, its `Current` value is immediately
re-emitted after the `None`, with no new dispatch of this binding. -/
theorem c9_registry_emission_restarts (s : RState) (j : Nat) (v : Inp)
    (rec : JobRecord) (j2 : Nat) (rec2 : JobRecord)
    (hdep : s.dep = some (j, v)) (hne : j2 ≠ j)
    (hjb : lookupJob s.jobs j = some rec) (hst : rec.state = .Succeeded) :
    (stepR s (.jobsEmit j2 rec2)).2 = [placeholderV, succEmission v j rec] ∧
    (stepR s (.jobsEmit j2 rec2)).1.mode = .subscribed ∧
    (stepR s (.jobsEmit j2 rec2)).1.dep = some (j, v) := by
  have hlk := lookupJob_upsert_ne s.jobs j2 j rec2 hne
  rw [hjb] at hlk
  refine ⟨?_, ?_, ?_⟩ <;>
    simp [stepR, rerunStep, hdep, hlk, subscribeEmit, hst]

/-- Witness for C9: with job 1 already `Succeeded` and subscribed, an
unrelated registry upsert of job 2 makes the binding re-emit `None` and
then job 1's `Current` value again. -/
theorem c9_witness :
    (stepR ⟨some (1, 10), [(1, recSucc)], .subscribed⟩
        (.jobsEmit 2 recRunning)).2
      = [placeholderV, succEmission 10 1 recSucc] :=
  (c9_registry_emission_restarts ⟨some (1, 10), [(1, recSucc)], .subscribed⟩
    1 10 recSucc 2 recRunning rfl (by decide) (by decide) rfl).1

/-- Claim C10: every Results value either variant ever emits has
`outputState` equal to `'None'` or `'Current'`; the `'Stale'` member of
`OutputState` is produced by no operation. -/
theorem c10_no_stale_emitted :
    (∀ (s : RState) (l : List REvent) (x : ResultsV), x ∈ (runR s l).2 →
       x.outputState = OutputState.None ∨ x.outputState = OutputState.Current) ∧
    (∀ (s : P1RState) (l : List P1Event) (x : Results1), x ∈ (runP1 s l).2 →
       x.outputState = OutputState.None ∨ x.outputState = OutputState.Current) := by
  constructor
  · intro s l x hx
    rcases runR_emit_char l s x hx with h | ⟨j, v, rec, h | h⟩ <;> subst h <;>
      simp [placeholderV, succEmission, failEmission]
  · intro s l x hx
    rcases runP1_emit_char l s x hx with ⟨j, h⟩ | ⟨j, rec, h⟩ <;> subst h <;>
      simp [placeholder1, succEmission1]

/-- Witness for C10 at a concrete trace and emission. -/
theorem c10_witness :
    placeholderV.outputState = OutputState.None ∨
      placeholderV.outputState = OutputState.Current :=
  c10_no_stale_emitted.1 initR [.publish 1 0] placeholderV (by decide)

end Checkr
